import Mathlib

/-
Verification of the `data-testing-tutorial` notebook
(`bonus-2-property-based-testing.ipynb`).

The notebook contains three code fragments:
  * `increment(x)`: `return x + 1`;
  * `test_increment(x)`: `assert increment(x) - 1 == x` (property-based,
    over all integers);
  * a `test_eq_roots(a, b, c)` snippet that computes
    `discriminant = b**2 - 4*a*c`, leaves the `assume(discriminant...)`
    line commented out, calls `eq_roots(coefficients)` (where the name
    `coefficients` is bound nowhere in the test body), and asserts
    `r1 >= r2`;
  * a stub `eq_roots(coefficients)` whose body is only a docstring and an
    ellipsis `...` before `return root1, root2`, so the names `root1` and
    `root2` are unbound when the return statement runs.

Python integers are unbounded, so integer arithmetic is embedded as `Int`.
Name resolution in the two broken snippets is embedded explicitly: a local
scope is an association list from names to values, and evaluating an
unbound name yields a `nameError` result, as in Python.
-/

/-- `def increment(x): return x + 1` from the notebook. -/
def increment (x : Int) : Int := x + 1

/-- `test_increment(x)`: whether the assertion `increment(x) - 1 == x`
passes on the generated integer `x`. -/
def test_increment (x : Int) : Bool := increment x - 1 == x

/-- The body of `increment` threaded through an explicit ambient state `s`
of arbitrary type: the single statement `return x + 1` cannot raise and
does not touch any state, so the call returns `ok (x + 1)` and passes the
state through unchanged. -/
def increment_exec {σ : Type} (x : Int) (s : σ) : Except String Int × σ :=
  (Except.ok (x + 1), s)

/-- `test_increment` threaded through an explicit ambient state: the
assertion outcome is computed from `x` alone and the state is unchanged. -/
def test_increment_exec {σ : Type} (x : Int) (s : σ) : Bool × σ :=
  (test_increment x, s)

/-- Result of running a Python snippet: either a value, or a `NameError`
raised while evaluating the given unbound name. -/
inductive PyResult (α : Type) where
  | ok : α → PyResult α
  | nameError : String → PyResult α
deriving DecidableEq, Repr

/-- Lookup of a name in a local scope (an association list). -/
def lookupName {α : Type} : List (String × α) → String → Option α
  | [], _ => none
  | (k, v) :: rest, n => if k = n then some v else lookupName rest n

/-- The stub `eq_roots(coefficients)` exactly as written in the notebook:
its local scope binds only the parameter `coefficients` (the docstring and
the ellipsis expression bind nothing), and the statement
`return root1, root2` evaluates the names `root1` and `root2` in that
scope.  Python evaluates `root1` first. -/
def eq_roots_stub {α : Type} (coefficients : α) : PyResult (α × α) :=
  let locals : List (String × α) := [("coefficients", coefficients)]
  match lookupName locals "root1", lookupName locals "root2" with
  | some r1, some r2 => PyResult.ok (r1, r2)
  | none, _ => PyResult.nameError "root1"
  | some _, none => PyResult.nameError "root2"

/-- The local scope of the `test_eq_roots(a, b, c)` snippet right before
the line `r1, r2 = eq_roots(coefficients)`: the parameters `a`, `b`, `c`
and the local `discriminant = b**2 - 4*a*c`.  The commented-out
`assume(...)` line binds nothing. -/
def testEqRootsLocals (a b c : Int) : List (String × Int) :=
  ("discriminant", b ^ 2 - 4 * a * c) :: [("a", a), ("b", b), ("c", c)]

/-- The `test_eq_roots(a, b, c)` snippet exactly as written: after
computing `discriminant`, the argument expression `coefficients` is
evaluated in the local scope; if that lookup succeeded the stub
`eq_roots` would be called on the value and the assertion `r1 >= r2`
would run on the returned pair. -/
def test_eq_roots_snippet (a b c : Int) : PyResult Bool :=
  match lookupName (testEqRootsLocals a b c) "coefficients" with
  | none => PyResult.nameError "coefficients"
  | some v =>
    match eq_roots_stub v with
    | PyResult.nameError n => PyResult.nameError n
    | PyResult.ok (r1, r2) => PyResult.ok (decide (r2 ≤ r1))

/-- The local variable `discriminant = b**2 - 4*a*c` computed in
`test_eq_roots`; Python integers are unbounded, hence `Int`. -/
def discriminant (a b c : Int) : Int := b ^ 2 - 4 * a * c

/-- C1: for every integer x, `increment x = x + 1`, and equivalently
`increment x - 1 = x`, the notebook's property-based test for all
integers, not just the example x = 10. -/
theorem increment_add_one (x : Int) :
    increment x = x + 1 ∧ increment x - 1 = x := by
  refine ⟨rfl, ?_⟩
  simp [increment]

/-- C6: `increment` has no error conditions and no side effects: run with
any ambient state, it terminates normally with `ok (increment x)` (never
an error) and returns the state unchanged. -/
theorem increment_no_error_no_side_effect {σ : Type} (x : Int) (s : σ) :
    (increment_exec x s).1 = Except.ok (increment x) ∧
    (increment_exec x s).2 = s :=
  ⟨rfl, rfl⟩

/-- C8: `increment` is strictly monotone and injective on the integers. -/
theorem increment_strictMono_injective (x y : Int) :
    (x < y → increment x < increment y) ∧
    (increment x = increment y → x = y) := by
  constructor
  · intro h
    simpa [increment] using h
  · intro h
    simpa [increment] using h

/-- Witness for C8 at the concrete inputs (1, 2) and (3, 3). -/
theorem increment_strictMono_injective_witness :
    increment 1 < increment 2 ∧ (3 : Int) = 3 :=
  ⟨(increment_strictMono_injective 1 2).1 (by decide),
   (increment_strictMono_injective 3 3).2 rfl⟩

/-- C9: `increment` and its property test are deterministic: two runs on
equal generated inputs, with arbitrary and possibly different ambient
states, produce equal call results and equal test outcomes, so the test
outcome depends only on the generated value x. -/
theorem increment_deterministic {σ₁ σ₂ : Type} (s1 : σ₁) (s2 : σ₂)
    (x1 x2 : Int) (h : x1 = x2) :
    (increment_exec x1 s1).1 = (increment_exec x2 s2).1 ∧
    (test_increment_exec x1 s1).1 = (test_increment_exec x2 s2).1 := by
  subst h
  exact ⟨rfl, rfl⟩

/-- Witness for C9 at the notebook's example input x = 10 run in two
different states. -/
theorem increment_deterministic_witness :
    (increment_exec 10 true).1 = (increment_exec 10 (0 : Nat)).1 ∧
    (test_increment_exec 10 true).1 = (test_increment_exec 10 (0 : Nat)).1 :=
  increment_deterministic true (0 : Nat) 10 10 rfl

/-- C4: the stub `eq_roots` is unimplemented: on every input its return
statement evaluates the unbound name `root1`, so the call raises
`NameError` instead of producing a pair of roots. -/
theorem eq_roots_stub_name_error {α : Type} (coefficients : α) :
    eq_roots_stub coefficients = PyResult.nameError "root1" := by
  rfl

/-- C10: in the `test_eq_roots` snippet the name `coefficients` is bound
nowhere in the test body (the locals are `a`, `b`, `c`, `discriminant`),
so on every generated triple the test raises a `NameError` for
`coefficients` before the assertion `r1 >= r2` is ever evaluated. -/
theorem test_eq_roots_snippet_name_error (a b c : Int) :
    lookupName (testEqRootsLocals a b c) "coefficients" = none ∧
    test_eq_roots_snippet a b c = PyResult.nameError "coefficients" :=
  ⟨rfl, rfl⟩

/-- Modelled from the spec: the implementation of `eq_roots` is missing
from the source (the notebook leaves the body as an ellipsis for the
reader).  Per the spec it "returns the non-complex roots of a quadratic
equation" by the standard quadratic formula, is to be implemented "such
that `root1 >= root2`", with real-valued output only meaningful when the
discriminant `b^2 - 4*a*c` is non-negative. -/
noncomputable def eq_roots (a b c : ℝ) : ℝ × ℝ :=
  (max ((-b + Real.sqrt (b ^ 2 - 4 * a * c)) / (2 * a))
       ((-b - Real.sqrt (b ^ 2 - 4 * a * c)) / (2 * a)),
   min ((-b + Real.sqrt (b ^ 2 - 4 * a * c)) / (2 * a))
       ((-b - Real.sqrt (b ^ 2 - 4 * a * c)) / (2 * a)))

/-- Modelled from the spec: the `assume(discriminant...)` line of
`test_eq_roots` is left commented out and incomplete in the source; the
spec says the precondition "discriminant non-negative" is encoded via a
filtering mechanism before invoking the function.  `none` means the
generated triple was filtered out by `assume`; `some p` means `eq_roots`
was invoked and the assertion ran on the pair `p`. -/
noncomputable def test_eq_roots (a b c : Int) : Option (ℝ × ℝ) :=
  if discriminant a b c < 0 then none
  else some (eq_roots (a : ℝ) (b : ℝ) (c : ℝ))

lemma quadratic_root_formula (a b c s : ℝ) (ha : a ≠ 0)
    (hs : s ^ 2 = b ^ 2 - 4 * a * c) :
    a * ((-b + s) / (2 * a)) ^ 2 + b * ((-b + s) / (2 * a)) + c = 0 := by
  field_simp
  nlinarith [hs]

lemma sqrt_sq_of_nonneg_disc (a b c : ℝ) (hd : 0 ≤ b ^ 2 - 4 * a * c) :
    Real.sqrt (b ^ 2 - 4 * a * c) ^ 2 = b ^ 2 - 4 * a * c :=
  Real.sq_sqrt hd

/-- C2: for every real coefficient triple (a, b, c) with a ≠ 0 and
non-negative discriminant, both components of `eq_roots a b c` are roots
of the quadratic a*x^2 + b*x + c. -/
theorem eq_roots_are_roots (a b c : ℝ) (ha : a ≠ 0)
    (hd : 0 ≤ b ^ 2 - 4 * a * c) :
    a * (eq_roots a b c).1 ^ 2 + b * (eq_roots a b c).1 + c = 0 ∧
    a * (eq_roots a b c).2 ^ 2 + b * (eq_roots a b c).2 + c = 0 := by
  have hs : Real.sqrt (b ^ 2 - 4 * a * c) ^ 2 = b ^ 2 - 4 * a * c :=
    sqrt_sq_of_nonneg_disc a b c hd
  have h1 : a * ((-b + Real.sqrt (b ^ 2 - 4 * a * c)) / (2 * a)) ^ 2 +
      b * ((-b + Real.sqrt (b ^ 2 - 4 * a * c)) / (2 * a)) + c = 0 :=
    quadratic_root_formula a b c _ ha hs
  have h2 : a * ((-b - Real.sqrt (b ^ 2 - 4 * a * c)) / (2 * a)) ^ 2 +
      b * ((-b - Real.sqrt (b ^ 2 - 4 * a * c)) / (2 * a)) + c = 0 := by
    have hs2 : (-Real.sqrt (b ^ 2 - 4 * a * c)) ^ 2 = b ^ 2 - 4 * a * c := by
      simpa using hs
    have h := quadratic_root_formula a b c (-Real.sqrt (b ^ 2 - 4 * a * c)) ha hs2
    simpa [sub_eq_add_neg] using h
  constructor
  · rcases max_choice ((-b + Real.sqrt (b ^ 2 - 4 * a * c)) / (2 * a))
      ((-b - Real.sqrt (b ^ 2 - 4 * a * c)) / (2 * a)) with h | h <;>
      simp only [eq_roots, h] <;> assumption
  · rcases min_choice ((-b + Real.sqrt (b ^ 2 - 4 * a * c)) / (2 * a))
      ((-b - Real.sqrt (b ^ 2 - 4 * a * c)) / (2 * a)) with h | h <;>
      simp only [eq_roots, h] <;> assumption

lemma eq_roots_one_zero_zero : eq_roots 1 0 0 = (0, 0) := by
  simp [eq_roots]

/-- Witness for C2 at the concrete triple (1, 0, 0). -/
theorem eq_roots_are_roots_witness :
    (1 : ℝ) ≠ 0 ∧ (0 : ℝ) ≤ 0 ^ 2 - 4 * 1 * 0 ∧
    (1 * (eq_roots 1 0 0).1 ^ 2 + 0 * (eq_roots 1 0 0).1 + 0 = 0 ∧
     1 * (eq_roots 1 0 0).2 ^ 2 + 0 * (eq_roots 1 0 0).2 + 0 = 0) :=
  ⟨by norm_num, by norm_num,
   eq_roots_are_roots 1 0 0 (by norm_num) (by norm_num)⟩

/-- C3: whenever the discriminant is non-negative, the pair returned by
`eq_roots` satisfies root1 ≥ root2. -/
theorem eq_roots_ordered (a b c : ℝ) (_hd : 0 ≤ b ^ 2 - 4 * a * c) :
    (eq_roots a b c).1 ≥ (eq_roots a b c).2 := by
  simp only [eq_roots]
  exact min_le_max

/-- Witness for C3 at the concrete triple (1, 0, 0). -/
theorem eq_roots_ordered_witness :
    (0 : ℝ) ≤ 0 ^ 2 - 4 * 1 * 0 ∧ (eq_roots 1 0 0).1 ≥ (eq_roots 1 0 0).2 :=
  ⟨by norm_num, eq_roots_ordered 1 0 0 (by norm_num)⟩

/-- C5: in `test_eq_roots` the `assume` filter runs before the call to
`eq_roots`, so whenever the assertion is reached on a pair (that is, the
test returns `some p` rather than being filtered), the generated triple
(a, b, c) has non-negative discriminant. -/
theorem test_eq_roots_filters (a b c : Int) (p : ℝ × ℝ)
    (h : test_eq_roots a b c = some p) : 0 ≤ discriminant a b c := by
  by_contra hneg
  push_neg at hneg
  simp [test_eq_roots, hneg] at h

/-- Witness for C5 at the concrete triple (1, 0, 0), on which the
assertion is reached with the pair (0, 0). -/
theorem test_eq_roots_filters_witness :
    test_eq_roots 1 0 0 = some (0, 0) ∧ 0 ≤ discriminant 1 0 0 := by
  have hrun : test_eq_roots 1 0 0 = some (0, 0) := by
    have : ¬ discriminant 1 0 0 < 0 := by decide
    simp [test_eq_roots, this, eq_roots_one_zero_zero]
  exact ⟨hrun, test_eq_roots_filters 1 0 0 (0, 0) hrun⟩

/-- C7: the local variable `discriminant` computed in `test_eq_roots`
equals b^2 - 4*a*c in unbounded integer arithmetic, and (for a ≠ 0) its
sign determines whether the quadratic has a real root, matching the
glossary. -/
lemma discriminant_cast (a b c : Int) :
    ((discriminant a b c : Int) : ℝ) =
      (b : ℝ) ^ 2 - 4 * (a : ℝ) * (c : ℝ) := by
  unfold discriminant
  push_cast
  ring

theorem discriminant_eq (a b c : Int) :
    discriminant a b c = b ^ 2 - 4 * a * c ∧
    (a ≠ 0 →
      (0 ≤ discriminant a b c ↔
        ∃ x : ℝ, (a : ℝ) * x ^ 2 + (b : ℝ) * x + (c : ℝ) = 0)) := by
  refine ⟨rfl, fun ha => ⟨fun hd => ?_, fun ⟨x, hx⟩ => ?_⟩⟩
  · have haR : (a : ℝ) ≠ 0 := Int.cast_ne_zero.mpr ha
    have hdR : (0 : ℝ) ≤ (b : ℝ) ^ 2 - 4 * (a : ℝ) * (c : ℝ) := by
      rw [← discriminant_cast a b c]
      exact_mod_cast hd
    refine ⟨(-(b : ℝ) + Real.sqrt ((b : ℝ) ^ 2 - 4 * (a : ℝ) * (c : ℝ))) /
      (2 * (a : ℝ)), ?_⟩
    exact quadratic_root_formula (a : ℝ) (b : ℝ) (c : ℝ) _ haR
      (Real.sq_sqrt hdR)
  · have key : (b : ℝ) ^ 2 - 4 * (a : ℝ) * (c : ℝ) =
        (2 * (a : ℝ) * x + (b : ℝ)) ^ 2 -
          4 * (a : ℝ) * ((a : ℝ) * x ^ 2 + (b : ℝ) * x + (c : ℝ)) := by
      ring
    rw [hx, mul_zero, sub_zero] at key
    have hdR : (0 : ℝ) ≤ (b : ℝ) ^ 2 - 4 * (a : ℝ) * (c : ℝ) := by
      rw [key]
      exact sq_nonneg _
    have h0 : (0 : ℝ) ≤ ((discriminant a b c : Int) : ℝ) := by
      rw [discriminant_cast a b c]
      exact hdR
    exact_mod_cast h0

/-- Witness for C7 at the concrete triple (1, 3, 2), whose discriminant
is 1 and whose quadratic x^2 + 3x + 2 has the real root -1. -/
theorem discriminant_eq_witness :
    discriminant 1 3 2 = 3 ^ 2 - 4 * 1 * 2 ∧
    (0 ≤ discriminant 1 3 2 ↔
      ∃ x : ℝ, ((1 : Int) : ℝ) * x ^ 2 + ((3 : Int) : ℝ) * x +
        ((2 : Int) : ℝ) = 0) :=
  ⟨(discriminant_eq 1 3 2).1, (discriminant_eq 1 3 2).2 (by decide)⟩
